import Mathlib

/-!
Verification of the Robinhood client of `src/lib/robinhood/client.ts`
(manjha-chat). The data model and operations below are shallow embeddings of
the TypeScript source: JS `Map` stores become functions `String → Option α`,
HTTP calls become explicit outcome parameters (an `Option`/inductive per call,
`none` standing for a thrown/failed request), JS numbers on money paths become
`ℚ`, and timestamps become `ℕ` (milliseconds, the `Date.now()` scale).
-/

namespace Manjha

/-- A key/value store keyed by user id, as the in-memory `Map`s and the
`RobinhoodSession` table of the source. -/
def Store (α : Type) : Type := String → Option α

/-- `Map.set` / upsert. -/
def Store.set {α : Type} (m : Store α) (k : String) (v : α) : Store α :=
  fun k2 => if k2 = k then some v else m k2

/-- `Map.delete` / row delete. -/
def Store.del {α : Type} (m : Store α) (k : String) : Store α :=
  fun k2 => if k2 = k then none else m k2

/-- The empty store. -/
def Store.empty {α : Type} : Store α := fun _ => none

/-- `RobinhoodSession` (src/lib/robinhood/types.ts): the authenticated session
record. `expiresAt` is an epoch-millisecond timestamp. -/
structure RobinhoodSession where
  accessToken : String
  refreshToken : Option String
  expiresAt : Nat
  accountId : Option String
  accountUrl : Option String
deriving Repr, DecidableEq

/-- `RobinhoodConnectionStatus` (src/lib/robinhood/types.ts). -/
structure RobinhoodConnectionStatus where
  connected : Bool
  expiresAt : Option Nat
deriving Repr, DecidableEq

/-- Modelled from the spec: `getRobinhoodSession` lives in `src/lib/db/queries`,
which is not among the sources; spec §6 fixes the storage layer's contract as a
plain get/set/clear keyed by user id ("Persistence layout for Session is owned
by the excluded storage layer; this core only requires get/set/clear keyed by
user id with an expiry timestamp field"), so the get is a bare keyed lookup. -/
def getRobinhoodSession (db : Store RobinhoodSession) (userId : String) :
    Option RobinhoodSession :=
  db userId

/-- `getSession` (client.ts lines 80-97): reads the stored record and converts
its fields; the body performs no `expiresAt` comparison and deletes nothing. -/
def getSession (db : Store RobinhoodSession) (userId : String) :
    Option RobinhoodSession :=
  match getRobinhoodSession db userId with
  | none => none
  | some dbSession =>
      some { accessToken := dbSession.accessToken
             refreshToken := dbSession.refreshToken
             accountId := dbSession.accountId
             accountUrl := dbSession.accountUrl
             expiresAt := dbSession.expiresAt }

/-- `getConnectionStatus` (client.ts lines 126-134):
`connected := !!session`, `expiresAt := session?.expiresAt`. -/
def getConnectionStatus (db : Store RobinhoodSession) (userId : String) :
    RobinhoodConnectionStatus :=
  let session := getSession db userId
  { connected := session.isSome
    expiresAt := session.map (fun s => s.expiresAt) }

/-- `getSession` of the earlier in-memory Robinhood client kept in the sources
(src/unnamed/part_000x, lines 65-75): returns the stored session only while
`session.expiresAt > Date.now()`, and deletes an expired record on the read.
Returns the read result together with the store after the read. -/
def getSessionInMemory (store : Store RobinhoodSession) (userId : String)
    (now : Nat) : Option RobinhoodSession × Store RobinhoodSession :=
  match store userId with
  | some session =>
      if now < session.expiresAt then (some session, store)
      else (none, Store.del store userId)
  | none => (none, store)

/-! ### Device token registry (client.ts lines 44-74 and 845-858)

`generateDeviceToken` draws 32 hexadecimal digits from `Math.random`; the
randomness is made explicit as an oracle `rand : Nat → Nat` of successive
draws, the j-th generator call consuming draws `32*j .. 32*j+31`. -/

/-- Indexing the `chars` table "0123456789abcdef" of `generateDeviceToken`:
for an index below 16, `Nat.digitChar` is exactly that table. -/
def hexChar (n : Nat) : Char := Nat.digitChar n

/-- The character-building loop of `generateDeviceToken`: hex digit for index
`i`, with a dash appended after indices 7, 11, 15 and 19. `remaining` counts
the loop iterations left (starting at 32). -/
def tokenCharsFrom (rand : Nat → Nat) (base : Nat) : Nat → Nat → List Char
  | _, 0 => []
  | i, n + 1 =>
      let c := hexChar (rand (base + i) % 16)
      let rest := tokenCharsFrom rand base (i + 1) n
      if i = 7 ∨ i = 11 ∨ i = 15 ∨ i = 19 then c :: '-' :: rest else c :: rest

/-- `generateDeviceToken` (client.ts lines 848-858), with the `Math.random`
draws of this call given by `rand (base + i)` for `i < 32`. -/
def generateDeviceToken (rand : Nat → Nat) (base : Nat) : String :=
  String.mk (tokenCharsFrom rand base 0 32)

/-- The device-token registry state: the `deviceTokenStore` map plus the count
of generator calls made so far (the position in the randomness stream). -/
structure DeviceTokenState where
  store : Store String
  calls : Nat

/-- `getOrCreateDeviceToken` (client.ts lines 52-59): return the stored token
if present, otherwise generate, store and return a fresh one. -/
def getOrCreateDeviceToken (rand : Nat → Nat) (s : DeviceTokenState)
    (userId : String) : String × DeviceTokenState :=
  match s.store userId with
  | some token => (token, s)
  | none =>
      let token := generateDeviceToken rand (32 * s.calls)
      (token, { store := Store.set s.store userId token, calls := s.calls + 1 })

/-- `clearDeviceToken` (client.ts lines 64-66) = `resetDeviceToken`
(lines 72-74): drop the entry. -/
def clearDeviceToken (s : DeviceTokenState) (userId : String) : DeviceTokenState :=
  { s with store := Store.del s.store userId }

/-! ### Logout (client.ts lines 499-523) -/

/-- Outcome of the best-effort `/oauth2/revoke_token/` call. -/
inductive RevokeOutcome
  | success
  | httpError
  | thrown
deriving Repr, DecidableEq

/-- Combined local state touched by `logout`: the session storage and the
device-token registry. -/
structure ClientState where
  sessions : Store RobinhoodSession
  deviceTokens : Store String

/-- `logout` (client.ts lines 499-523): read the session; if one is stored,
attempt the upstream revoke (its HTTP status is never inspected and a thrown
error is swallowed by the empty catch); then `clearSession`,
`clearDeviceToken`, and return `true`. -/
def logout (st : ClientState) (userId : String) (outcome : RevokeOutcome) :
    Bool × ClientState :=
  let session := getSession st.sessions userId
  let _revoked : Option RevokeOutcome :=
    match session with
    | some _ => some outcome
    | none => none
  (true,
    { sessions := Store.del st.sessions userId
      deviceTokens := Store.del st.deviceTokens userId })

/-! ### Pagination -/

/-- The `while (nextUrl)` accumulation loop of `getPortfolio`
(client.ts lines 640-652) and `getTodayOptionsOrders` (lines 1172-1182):
`allResults = [...allResults, ...page.results]; nextUrl = page.next`. The
broker's chain of pages is the list `pages`; running out of list is a `null`
`next`. -/
def fetchAllPages {α : Type} : List (List α) → List α → List α
  | [], acc => acc
  | page :: rest, acc => fetchAllPages rest (acc ++ page)

/-- The single request of `getPositions` (client.ts lines 750-756): one call to
`/positions/?nonzero=true`, using only that response's `results` and never its
`next` cursor. -/
def getPositionsFetch {α : Type} (pages : List (List α)) : List α :=
  match pages with
  | [] => []
  | page :: _ => page

/-! ### Market data model -/

/-- The fields of `RobinhoodQuote` the client reads. The source parses price
strings with `Number.parseFloat`; parsed values are `ℚ` here.
`last_extended_hours_trade_price` is `string | null` guarded by JS truthiness,
so `none` covers both `null` and the falsy empty string. -/
structure RobinhoodQuote where
  last_trade_price : ℚ
  last_extended_hours_trade_price : Option ℚ
  previous_close : ℚ
deriving Repr, DecidableEq

/-- The fields of `RobinhoodInstrument` the client reads.
`simple_name : string | null`. -/
structure InstrumentInfo where
  symbol : String
  simple_name : Option String
  name : String
deriving Repr, DecidableEq

/-- The fields of `RobinhoodPosition` the client reads. -/
structure StockPosition where
  instrument : String
  average_buy_price : ℚ
  quantity : ℚ
deriving Repr, DecidableEq

/-- `FormattedPosition` (src/lib/robinhood/types.ts). -/
structure FormattedPosition where
  symbol : String
  name : String
  quantity : ℚ
  averageCost : ℚ
  currentPrice : ℚ
  marketValue : ℚ
  totalGainLoss : ℚ
  totalGainLossPercent : ℚ
deriving Repr, DecidableEq

/-- The broker's instrument and quote endpoints, as lookup functions; `none`
models a thrown request (the only failure the client distinguishes). -/
structure MarketEnv where
  instrumentOf : String → Option InstrumentInfo
  quoteOf : String → Option RobinhoodQuote

/-- JS `a || b` on `simple_name || name`: `null` and the empty string both
fall through to `name`. -/
def jsStringOr (a : Option String) (b : String) : String :=
  match a with
  | some s => if s = "" then b else s
  | none => b

/-- The quote resolution of the portfolio stock loop and of `getPositions`:
fetch the position's instrument, then the quote for its symbol; a failure of
either is one thrown `try` body. -/
def stockQuoteLookup (env : MarketEnv) (p : StockPosition) :
    Option RobinhoodQuote :=
  match env.instrumentOf p.instrument with
  | none => none
  | some ins => env.quoteOf ins.symbol

/-- `currentPrice` of the portfolio stock loop (client.ts lines 678-684):
`extendedHoursPrice ?? lastTradePrice`. -/
def currentPriceOf (q : RobinhoodQuote) : ℚ :=
  match q.last_extended_hours_trade_price with
  | some p => p
  | none => q.last_trade_price

/-- One iteration of the stock loop of `getPortfolio` (client.ts lines
657-693) over the running pair (totalStockValue, totalStockPreviousClose):
skip zero quantity, skip on a thrown instrument/quote fetch, else accumulate
`quantity * currentPrice` and `quantity * previousClose`. -/
def stockStep (env : MarketEnv) (acc : ℚ × ℚ) (p : StockPosition) : ℚ × ℚ :=
  if p.quantity = 0 then acc
  else
    match stockQuoteLookup env p with
    | none => acc
    | some q =>
        (acc.1 + p.quantity * currentPriceOf q,
         acc.2 + p.quantity * q.previous_close)

/-- The stock loop of `getPortfolio`: fold `stockStep` from `(0, 0)`. -/
def stockTotals (env : MarketEnv) (positions : List StockPosition) : ℚ × ℚ :=
  positions.foldl (stockStep env) (0, 0)

/-- The market value one position contributes to `totalStockValue`. -/
def stockMarketValue (env : MarketEnv) (p : StockPosition) : ℚ :=
  if p.quantity = 0 then 0
  else
    match stockQuoteLookup env p with
    | none => 0
    | some q => p.quantity * currentPriceOf q

/-- The previous-close value one position contributes to
`totalStockPreviousClose`. -/
def stockPrevCloseValue (env : MarketEnv) (p : StockPosition) : ℚ :=
  if p.quantity = 0 then 0
  else
    match stockQuoteLookup env p with
    | none => 0
    | some q => p.quantity * q.previous_close

/-! ### Crypto holdings (client.ts lines 979-1047) -/

/-- One cost-basis lot of `RobinhoodCryptoHolding.cost_bases`. -/
structure CryptoCostBasis where
  direct_cost_basis : ℚ
  direct_quantity : ℚ
deriving Repr, DecidableEq

/-- The fields of `RobinhoodCryptoHolding` the client reads. -/
structure CryptoHolding where
  code : String
  name : String
  quantity : ℚ
  cost_bases : List CryptoCostBasis
deriving Repr, DecidableEq

/-- `FormattedCryptoHolding` (src/lib/robinhood/types.ts). -/
structure FormattedCryptoHolding where
  symbol : String
  name : String
  quantity : ℚ
  averageCost : ℚ
  currentPrice : ℚ
  marketValue : ℚ
  totalGainLoss : ℚ
  totalGainLossPercent : ℚ
deriving Repr, DecidableEq

/-- The nummus pair resolution plus forex quote: `pairIdOf` is
`getCryptoPairId` (a thrown request already yields `null` there), `markPriceOf`
the `/marketdata/forex/quotes/` fetch. -/
structure CryptoEnv where
  pairIdOf : String → Option String
  markPriceOf : String → Option ℚ

/-- The current-price block of `getCryptoHoldings` (client.ts lines
1012-1027): price stays 0 when the pair resolves to `null` or the quote fetch
throws. -/
def cryptoPrice (env : CryptoEnv) (code : String) : ℚ :=
  match env.pairIdOf code with
  | none => 0
  | some pid =>
      match env.markPriceOf pid with
      | none => 0
      | some mp => mp

/-- The per-holding body of `getCryptoHoldings` (client.ts lines 993-1043). -/
def formatCryptoHolding (env : CryptoEnv) (h : CryptoHolding) :
    FormattedCryptoHolding :=
  let totalCost := (h.cost_bases.map (fun cb => cb.direct_cost_basis)).sum
  let totalQuantity := (h.cost_bases.map (fun cb => cb.direct_quantity)).sum
  let averageCost := if totalQuantity > 0 then totalCost / totalQuantity else 0
  let currentPrice := cryptoPrice env h.code
  let marketValue := h.quantity * currentPrice
  let totalGainLoss := marketValue - totalCost
  let totalGainLossPercent :=
    if totalCost > 0 then totalGainLoss / totalCost * 100 else 0
  { symbol := h.code, name := h.name, quantity := h.quantity, averageCost,
    currentPrice, marketValue, totalGainLoss, totalGainLossPercent }

/-- `getCryptoHoldings` over already-fetched raw holdings: skip zero
quantities, format the rest. -/
def getCryptoHoldings (env : CryptoEnv) (holdings : List CryptoHolding) :
    List FormattedCryptoHolding :=
  (holdings.filter (fun h => !(h.quantity = 0 : Bool))).map
    (formatCryptoHolding env)

/-! ### Options positions (client.ts lines 1052-1150) -/

/-- Option side. -/
inductive OptionType
  | call
  | put
deriving Repr, DecidableEq

/-- Position direction, the `type` field of `RobinhoodOptionPosition`. -/
inductive PositionType
  | long
  | short
deriving Repr, DecidableEq

/-- The fields of `RobinhoodOptionPosition` the client reads.
`trade_value_multiplier` is a `Number.parseFloat` result; `none` models `NaN`
(an unparseable string). -/
structure OptionPositionRaw where
  chain_symbol : String
  option : String
  average_price : ℚ
  trade_value_multiplier : Option ℚ
  quantity : ℚ
  type : PositionType
deriving Repr, DecidableEq

/-- The fields of `RobinhoodOptionInstrument` the client reads. -/
structure OptionInstrument where
  chain_symbol : String
  type : OptionType
  strike_price : ℚ
  expiration_date : String
deriving Repr, DecidableEq

/-- `FormattedOptionPosition` (src/lib/robinhood/types.ts). -/
structure FormattedOptionPosition where
  symbol : String
  optionType : OptionType
  strikePrice : ℚ
  expirationDate : String
  quantity : ℚ
  averageCost : ℚ
  currentPrice : ℚ
  marketValue : ℚ
  totalGainLoss : ℚ
  totalGainLossPercent : ℚ
  positionType : PositionType
deriving Repr, DecidableEq

/-- The option instrument and market-data endpoints. `markPriceOf` covers both
attempts of the nested market-data `try` (they hit the same URL; `none` means
both failed and the price stays 0). -/
structure OptionEnv where
  optionInstrumentOf : String → Option OptionInstrument
  markPriceOf : String → Option ℚ

/-- `Number.parseFloat(position.trade_value_multiplier) || 100`
(client.ts lines 1123-1124): `NaN` and `0` both fall back to 100. -/
def multiplierOf (tvm : Option ℚ) : ℚ :=
  match tvm with
  | none => 100
  | some m => if m = 0 then 100 else m

/-- The per-position body of `getOptionsPositions` (client.ts lines
1066-1147): defaults `symbol := chain_symbol`, `optionType := call`,
`strikePrice := 0`, `expirationDate := ""`, `currentPrice := 0`; a successful
instrument fetch overwrites the first four, after which the market-data fetch
(if it succeeds) sets the price. -/
def formatOptionPosition (env : OptionEnv) (p : OptionPositionRaw) :
    FormattedOptionPosition :=
  let fields :=
    match env.optionInstrumentOf p.option with
    | none => (p.chain_symbol, OptionType.call, (0 : ℚ), "", (0 : ℚ))
    | some ins =>
        match env.markPriceOf p.option with
        | none => (ins.chain_symbol, ins.type, ins.strike_price,
                   ins.expiration_date, (0 : ℚ))
        | some mp => (ins.chain_symbol, ins.type, ins.strike_price,
                      ins.expiration_date, mp)
  let averageCost := p.average_price
  let multiplier := multiplierOf p.trade_value_multiplier
  let marketValue := p.quantity * fields.2.2.2.2 * multiplier
  let totalCost := p.quantity * averageCost * multiplier
  let totalGainLoss :=
    match p.type with
    | PositionType.long => marketValue - totalCost
    | PositionType.short => totalCost - marketValue
  let totalGainLossPercent :=
    if totalCost > 0 then totalGainLoss / totalCost * 100 else 0
  { symbol := fields.1, optionType := fields.2.1, strikePrice := fields.2.2.1,
    expirationDate := fields.2.2.2.1, quantity := p.quantity, averageCost,
    currentPrice := fields.2.2.2.2, marketValue, totalGainLoss,
    totalGainLossPercent, positionType := p.type }

/-- `getOptionsPositions` over already-fetched raw positions: skip zero
quantities, format the rest. -/
def getOptionsPositions (env : OptionEnv) (positions : List OptionPositionRaw) :
    List FormattedOptionPosition :=
  (positions.filter (fun p => !(p.quantity = 0 : Bool))).map
    (formatOptionPosition env)

/-! ### Positions operation (client.ts lines 742-807) -/

/-- The per-position body of `getPositions` (client.ts lines 756-803). The
`try` first fetches the instrument (setting `symbol` and `name`), then the
quote (setting `currentPrice = last_trade_price`); the `catch` keeps whatever
was assigned before the throw, so a quote failure keeps the instrument's
symbol/name while the price stays 0. -/
def processPosition (env : MarketEnv) (p : StockPosition) : FormattedPosition :=
  let fields :=
    match env.instrumentOf p.instrument with
    | none => ("UNKNOWN", "Unknown", (0 : ℚ))
    | some ins =>
        match env.quoteOf ins.symbol with
        | none => (ins.symbol, jsStringOr ins.simple_name ins.name, (0 : ℚ))
        | some q => (ins.symbol, jsStringOr ins.simple_name ins.name,
                     q.last_trade_price)
  let averageCost := p.average_buy_price
  let marketValue := p.quantity * fields.2.2
  let totalCost := p.quantity * averageCost
  let totalGainLoss := marketValue - totalCost
  let totalGainLossPercent :=
    if totalCost > 0 then totalGainLoss / totalCost * 100 else 0
  { symbol := fields.1, name := fields.2.1, quantity := p.quantity,
    averageCost, currentPrice := fields.2.2, marketValue, totalGainLoss,
    totalGainLossPercent }

/-- `getPositions` (client.ts lines 742-807): a single page fetch (no
pagination), then skip zero quantities and format each remaining position. -/
def getPositionsOp (env : MarketEnv) (pages : List (List StockPosition)) :
    List FormattedPosition :=
  ((getPositionsFetch pages).filter (fun p => !(p.quantity = 0 : Bool))).map
    (processPosition env)

/-! ### Portfolio fallback path (client.ts lines 605-737) -/

/-- The fields of `RobinhoodAccount` the fallback path reads. -/
structure AccountData where
  cash : ℚ
  buying_power : ℚ
deriving Repr, DecidableEq

/-- `FormattedPortfolio` (src/lib/robinhood/types.ts); per-asset fields are
optional and the fallback path leaves the buying-power ones unset. -/
structure FormattedPortfolio where
  totalValue : ℚ
  equity : ℚ
  cash : ℚ
  buyingPower : ℚ
  dayChange : ℚ
  dayChangePercent : ℚ
  cryptoBuyingPower : Option ℚ
  optionsBuyingPower : Option ℚ
  stocksEquity : Option ℚ
  cryptoEquity : Option ℚ
deriving Repr, DecidableEq

/-- Everything the fallback path of `getPortfolio` consumes: the account
record, the paginated positions pages, the market/crypto/option endpoints, and
the raw results of the crypto and options fetches (`none` when the whole
`getCryptoHoldings` / `getOptionsPositions` call threw, which the source
catches and treats as a zero contribution). -/
structure FallbackInputs where
  account : AccountData
  stockPages : List (List StockPosition)
  marketEnv : MarketEnv
  cryptoFetch : Option (List CryptoHolding)
  cryptoEnv : CryptoEnv
  optionsFetch : Option (List OptionPositionRaw)
  optionEnv : OptionEnv

/-- The fallback (non-unified) path of `getPortfolio` (client.ts lines
605-737). The intermediate portfolio-endpoint fetch of lines 616-637 computes
`portfolioEquity`/`portfolioPreviousClose` but the returned record never uses
them, so it is omitted. -/
def getPortfolioFallback (inp : FallbackInputs) : FormattedPortfolio :=
  let cash := inp.account.cash
  let buyingPower := inp.account.buying_power
  let allPositions := fetchAllPages inp.stockPages []
  let totals := stockTotals inp.marketEnv allPositions
  let totalStockValue := totals.1
  let totalStockPreviousClose := totals.2
  let totalCryptoValue :=
    match inp.cryptoFetch with
    | none => 0
    | some holdings =>
        ((getCryptoHoldings inp.cryptoEnv holdings).map
          (fun h => h.marketValue)).sum
  let totalOptionsValue :=
    match inp.optionsFetch with
    | none => 0
    | some positions =>
        ((getOptionsPositions inp.optionEnv positions).map
          (fun o => o.marketValue)).sum
  let totalMarketValue := totalStockValue + totalCryptoValue + totalOptionsValue
  let equity := cash + totalMarketValue
  let equityPreviousClose := cash + totalStockPreviousClose
  let dayChange := equity - equityPreviousClose
  let dayChangePercent :=
    if equityPreviousClose > 0 then dayChange / equityPreviousClose * 100 else 0
  { totalValue := equity, equity, cash, buyingPower, dayChange,
    dayChangePercent, cryptoBuyingPower := none, optionsBuyingPower := none,
    stocksEquity := some totalStockValue, cryptoEquity := some totalCryptoValue }

/-! ### Login result and challenge handling -/

/-- `RobinhoodLoginResult` (src/lib/robinhood/types.ts): all fields but
`success` are optional. -/
structure RobinhoodLoginResult where
  success : Bool
  mfaRequired : Option Bool
  deviceVerificationRequired : Option Bool
  shouldRetry : Option Bool
  challengeId : Option String
  challengeType : Option String
  error : Option String
deriving Repr, DecidableEq

/-- A `RobinhoodLoginResult` with every optional field absent. -/
def loginResultBase : RobinhoodLoginResult :=
  { success := false, mfaRequired := none, deviceVerificationRequired := none,
    shouldRetry := none, challengeId := none, challengeType := none,
    error := none }

/-- The `challenge` object of the challenge-respond response body;
`remaining_attempts` is absent (`undefined`) or a number. -/
structure ChallengeData where
  remaining_attempts : Option Nat
deriving Repr, DecidableEq

/-- The challenge-respond response body fields the client reads. -/
structure ChallengeRespondData where
  status : Option String
  challenge : Option ChallengeData
deriving Repr, DecidableEq

/-- Outcome of the `/challenge/{id}/respond/` POST: the parsed body, or a
thrown request. -/
inductive ChallengeRespondOutcome
  | thrown
  | ok (data : ChallengeRespondData)
deriving Repr, DecidableEq

/-- The MFA branch of `login` (client.ts lines 239-281): respond to the
challenge; `some r` is an early `return r`, `none` means fall through and
resubmit the credentials with the mfa fields attached. A thrown respond call
is caught and falls through; `status === "validated"` or a missing `challenge`
falls through; a `challenge` with defined `remaining_attempts` returns the
invalid-code result carrying the submitted `challengeId`. -/
def respondToChallenge (challengeId : String)
    (outcome : ChallengeRespondOutcome) : Option RobinhoodLoginResult :=
  match outcome with
  | ChallengeRespondOutcome.thrown => none
  | ChallengeRespondOutcome.ok d =>
      if d.status = some "validated" ∨ d.challenge = none then none
      else
        match d.challenge with
        | some c =>
            match c.remaining_attempts with
            | some n =>
                some { loginResultBase with
                        success := false
                        error := some ("Invalid code. " ++ toString n ++
                          " attempts remaining.")
                        mfaRequired := some true
                        challengeId := some challengeId
                        challengeType := some "sms" }
            | none => none
        | none => none

/-! ### Device-approval polling (client.ts lines 173-213 and 363-405) -/

/-- The observable trace of one `pollPromptStatus` run: the outcome, the
number of status checks performed, and the sleep taken before each check in
order (milliseconds). -/
structure PollTrace where
  validated : Bool
  checks : Nat
  delays : List Nat
deriving Repr, DecidableEq

/-- The attempt loop of `pollPromptStatus`. `responses i` is the i-th status
check: `some s` an HTTP-ok body with `challenge_status = s`, `none` a non-ok
response or thrown fetch (both fall through to the next attempt). Before every
check except the first the loop sleeps `delayMs`. -/
def pollGo (responses : Nat → Option String) (delayMs : Nat) :
    Nat → Nat → List Nat → PollTrace
  | attempt, 0, acc =>
      { validated := false, checks := attempt, delays := acc.reverse }
  | attempt, remaining + 1, acc =>
      let d := if attempt = 0 then 0 else delayMs
      let acc2 := d :: acc
      if responses attempt = some "validated" then
        { validated := true, checks := attempt + 1, delays := acc2.reverse }
      else
        pollGo responses delayMs (attempt + 1) remaining acc2

/-- `pollPromptStatus` (client.ts lines 173-213) with its default budget
`maxAttempts = 6`, `delayMs = 2000`. -/
def pollPromptStatus (responses : Nat → Option String) : PollTrace :=
  pollGo responses 2000 0 6 []

/-- The prompt-challenge branch of `login` (client.ts lines 363-405): a
validated poll returns `shouldRetry`; an exhausted poll returns the
still-pending `deviceVerificationRequired` result carrying the challenge id,
not a hard failure. -/
def promptChallengeBranch (pollValidated : Bool) (challengeId : String) :
    RobinhoodLoginResult :=
  if pollValidated then
    { loginResultBase with success := false, shouldRetry := some true }
  else
    { loginResultBase with
        success := false
        deviceVerificationRequired := some true
        challengeId := some challengeId
        error := some
          "Please approve the login on your Robinhood app, then click Continue." }

/-! ### Today's options orders (client.ts lines 1156-1267) -/

/-- One execution of an order leg; `timestamp` in epoch milliseconds. -/
structure OptionExecution where
  timestamp : Nat
deriving Repr, DecidableEq

/-- One leg of an options order. -/
structure OptionOrderLeg where
  option : String
  position_effect : String
  ratio_quantity : ℚ
  side : String
  executions : List OptionExecution
deriving Repr, DecidableEq

/-- The fields of `RobinhoodOptionOrder` the client reads. `created_day` is
the calendar date extracted by `created_at.split("T")[0]` (dates in
`YYYY-MM-DD` compare lexicographically, i.e. as a totally ordered value);
`created_time` the time within the day, so that `(created_day, created_time)`
lexicographic order is the `created_at` order. `updated_at` in epoch
milliseconds. -/
structure OptionOrder where
  id : String
  created_day : Nat
  created_time : Nat
  updated_at : Nat
  price : ℚ
  processed_quantity : ℚ
  state : String
  legs : List OptionOrderLeg
deriving Repr, DecidableEq

/-- `FormattedOptionTrade` (src/lib/robinhood/types.ts); `executedAt` as an
epoch-millisecond timestamp (the JS sort compares `new Date(...).getTime()`). -/
structure FormattedOptionTrade where
  symbol : String
  optionType : OptionType
  strikePrice : ℚ
  expirationDate : String
  side : String
  positionEffect : String
  quantity : ℚ
  price : ℚ
  totalValue : ℚ
  state : String
  executedAt : Nat
  orderId : String
deriving Repr, DecidableEq

/-- `created_at` strict order: `a` was created strictly before `b`. -/
def createdLt (a b : OptionOrder) : Prop :=
  a.created_day < b.created_day ∨
    (a.created_day = b.created_day ∧ a.created_time < b.created_time)

instance : DecidableRel createdLt := by
  intro a b
  unfold createdLt
  infer_instance

/-- The broker returns orders strictly reverse-chronologically by
`created_at`: each order in the stream was created strictly after every later
one. -/
def StrictReverseChron (orders : List OptionOrder) : Prop :=
  orders.Pairwise (fun a b => createdLt b a)

instance (orders : List OptionOrder) : Decidable (StrictReverseChron orders) := by
  unfold StrictReverseChron
  infer_instance

/-- The pagination loop of `getTodayOptionsOrders` (client.ts lines
1172-1193): accumulate each page, and break early once the page's last order
(`results.at(-1)`) has a date before today; an empty page never breaks. -/
def collectOrderPages (today : Nat) : List (List OptionOrder) → List OptionOrder
  | [] => []
  | page :: rest =>
      match page.getLast? with
      | none => page ++ collectOrderPages today rest
      | some lastOrder =>
          if lastOrder.created_day < today then page
          else page ++ collectOrderPages today rest

/-- The exact-date filter of `getTodayOptionsOrders` (client.ts lines
1196-1199). -/
def todayFilter (today : Nat) (orders : List OptionOrder) : List OptionOrder :=
  orders.filter (fun o => (o.created_day = today : Bool))

/-- The per-leg record construction of `getTodayOptionsOrders` (client.ts
lines 1227-1256): `executedAt` is the last execution's timestamp when any
executions exist, else the order's `updated_at`. -/
def mkTrade (o : OptionOrder) (leg : OptionOrderLeg) (ins : OptionInstrument) :
    FormattedOptionTrade :=
  let quantity := o.processed_quantity * leg.ratio_quantity
  let price := o.price
  let multiplier : ℚ := 100
  let totalValue := quantity * price * multiplier
  let executedAt :=
    match leg.executions.getLast? with
    | some e => e.timestamp
    | none => o.updated_at
  { symbol := ins.chain_symbol, optionType := ins.type,
    strikePrice := ins.strike_price, expirationDate := ins.expiration_date,
    side := leg.side, positionEffect := leg.position_effect, quantity, price,
    totalValue, state := o.state, executedAt, orderId := o.id }

/-- The leg loop of one order: the instrument cache is a pure memo of the
deterministic `lookup`, and a leg whose instrument fetch fails is skipped
(`continue`). -/
def flattenOrderLegs (lookup : String → Option OptionInstrument)
    (o : OptionOrder) : List FormattedOptionTrade :=
  o.legs.filterMap (fun leg => (lookup leg.option).map (mkTrade o leg))

/-- The order loop of `getTodayOptionsOrders` (client.ts lines 1206-1258). -/
def flattenOrders (lookup : String → Option OptionInstrument) :
    List OptionOrder → List FormattedOptionTrade
  | [] => []
  | o :: rest => flattenOrderLegs lookup o ++ flattenOrders lookup rest

/-- The descending comparator of the final sort (client.ts lines 1261-1264):
`(a, b) => b.time - a.time` orders larger `executedAt` first. -/
def tradeDesc (a b : FormattedOptionTrade) : Bool :=
  decide (b.executedAt ≤ a.executedAt)

/-- The final sort of `getTodayOptionsOrders`, most recent `executedAt`
first. -/
def sortTradesDesc (l : List FormattedOptionTrade) : List FormattedOptionTrade :=
  l.mergeSort tradeDesc

/-- `getTodayOptionsOrders` (client.ts lines 1156-1267): early-stop
pagination, exact-date filter, per-leg flatten, sort descending by
`executedAt`. -/
def getTodayOptionsOrders (lookup : String → Option OptionInstrument)
    (today : Nat) (pages : List (List OptionOrder)) :
    List FormattedOptionTrade :=
  sortTradesDesc
    (flattenOrders lookup (todayFilter today (collectOrderPages today pages)))

/-- The spec-side reference for the claim's refinement: paginate
exhaustively (concatenate every page), then filter to today, flatten and
sort. -/
def getTodayOptionsOrdersExhaustive (lookup : String → Option OptionInstrument)
    (today : Nat) (pages : List (List OptionOrder)) :
    List FormattedOptionTrade :=
  sortTradesDesc (flattenOrders lookup (todayFilter today pages.flatten))

/-! ## Helper lemmas -/

theorem fetchAllPages_eq {α : Type} (pages : List (List α)) (acc : List α) :
    fetchAllPages pages acc = acc ++ pages.flatten := by
  induction pages generalizing acc with
  | nil => simp [fetchAllPages]
  | cons page rest ih => simp [fetchAllPages, ih]

theorem store_set_get {α : Type} (m : Store α) (k : String) (v : α) :
    Store.set m k v k = some v := by
  simp [Store.set]

theorem store_del_get {α : Type} (m : Store α) (k : String) :
    Store.del m k k = none := by
  simp [Store.del]

/-! ## C1 — connection status versus session expiry -/

/-- The C1 failing input: a stored session whose `expiresAt` (5) lies before
`now` (10). -/
def c1ExpiredSession : RobinhoodSession :=
  { accessToken := "tok", refreshToken := none, expiresAt := 5,
    accountId := none, accountUrl := none }

/-- C1 (code_bug evidence): with the storage layer modelled as the plain keyed
get of spec §6, the DB-backed `getSession`/`getConnectionStatus` of
src/lib/robinhood/client.ts never evaluate `expiresAt`: at `now = 10` a
session expired at 5 is still reported `connected = true` and the record is
not purged (the read is pure and the store still holds it) — against
`getSession`'s own doc comment "undefined if expired". The older in-memory
client kept in the sources implements exactly the claimed behavior: at the
same input it reports no session and deletes the record. -/
theorem c1_expired_session_still_connected :
    c1ExpiredSession.expiresAt < 10
    ∧ (getConnectionStatus (Store.set Store.empty "user-1" c1ExpiredSession)
        "user-1").connected = true
    ∧ getRobinhoodSession (Store.set Store.empty "user-1" c1ExpiredSession)
        "user-1" = some c1ExpiredSession
    ∧ (getSessionInMemory (Store.set Store.empty "user-1" c1ExpiredSession)
        "user-1" 10).1 = none
    ∧ (getSessionInMemory (Store.set Store.empty "user-1" c1ExpiredSession)
        "user-1" 10).2 "user-1" = none := by
  refine ⟨by decide, ?_, ?_, ?_, ?_⟩
  · simp [getConnectionStatus, getSession, getRobinhoodSession, Store.set,
      Store.empty]
  · simp [getRobinhoodSession, Store.set, Store.empty]
  · simp [getSessionInMemory, Store.set, Store.empty, c1ExpiredSession]
  · simp [getSessionInMemory, Store.set, Store.empty, Store.del,
      c1ExpiredSession]

/-! ## C2 — pagination -/

/-- First page of the C2 counterexample input. -/
def c2Page1 : List StockPosition :=
  [{ instrument := "ins-a", average_buy_price := 10, quantity := 1 }]

/-- Second page of the C2 counterexample input (reachable through `next`). -/
def c2Page2 : List StockPosition :=
  [{ instrument := "ins-b", average_buy_price := 20, quantity := 2 }]

/-- C2 (counterexample): the standalone positions fetch of `getPositions`
does not follow the `next` cursor — on a two-page response it returns only
the first page's results, not the concatenation of all pages. -/
theorem c2_positions_fetch_not_paginated :
    getPositionsFetch [c2Page1, c2Page2] ≠
      ([c2Page1, c2Page2] : List (List StockPosition)).flatten := by
  intro h
  have hlen := congrArg List.length h
  simp [getPositionsFetch, c2Page1, c2Page2] at hlen

/-- C2 (amended): the pagination loop used by `getPortfolio`'s positions
fetch (and by the orders fetch) follows `next` until it is absent and its
aggregate equals the concatenation of all pages, however the items are split;
the standalone `getPositions` uses only the first page. -/
theorem c2_pagination_aggregates_all_pages {α : Type} (pages : List (List α)) :
    fetchAllPages pages [] = pages.flatten
    ∧ getPositionsFetch pages = pages.headD [] := by
  constructor
  · simpa using fetchAllPages_eq pages []
  · cases pages <;> rfl

/-! ## C8 — device token registry -/

/-- C8 (counterexample): the token generator draws from `Math.random`; on a
run of the randomness oracle that repeats its draws (all-zero draws here),
the `getOrCreate` following a `clear` returns the very same token again, so
"returns a different token" does not hold of the code. -/
theorem c8_same_token_after_clear_possible :
    (getOrCreateDeviceToken (fun _ => 0)
      (clearDeviceToken
        (getOrCreateDeviceToken (fun _ => 0)
          { store := Store.empty, calls := 0 } "user-1").2 "user-1")
      "user-1").1
    = (getOrCreateDeviceToken (fun _ => 0)
        { store := Store.empty, calls := 0 } "user-1").1 := by
  decide

/-- C8 (amended): unconditionally, two consecutive `getOrCreate` calls with
no intervening clear/reset return the identical token (and leave the registry
unchanged), and after a `clear` the next `getOrCreate` returns a freshly
generated token — the next output of the generator; that token differs from
the previous one exactly when the fresh generator output differs (randomness
repeating is not excluded by the code). -/
theorem c8_get_or_create_idempotent_fresh_after_clear (rand : Nat → Nat)
    (s : DeviceTokenState) (userId : String) :
    (getOrCreateDeviceToken rand (getOrCreateDeviceToken rand s userId).2
        userId).1
      = (getOrCreateDeviceToken rand s userId).1
    ∧ (getOrCreateDeviceToken rand (getOrCreateDeviceToken rand s userId).2
        userId).2
      = (getOrCreateDeviceToken rand s userId).2
    ∧ (getOrCreateDeviceToken rand
        (clearDeviceToken (getOrCreateDeviceToken rand s userId).2 userId)
        userId).1
      = generateDeviceToken rand
          (32 * (getOrCreateDeviceToken rand s userId).2.calls)
    ∧ ((getOrCreateDeviceToken rand
          (clearDeviceToken (getOrCreateDeviceToken rand s userId).2 userId)
          userId).1
        ≠ (getOrCreateDeviceToken rand s userId).1
      ↔ generateDeviceToken rand
          (32 * (getOrCreateDeviceToken rand s userId).2.calls)
        ≠ (getOrCreateDeviceToken rand s userId).1) := by
  cases h : s.store userId with
  | some t =>
      refine ⟨?_, ?_, ?_, ?_⟩ <;>
        simp_all [getOrCreateDeviceToken, clearDeviceToken, Store.del, h]
  | none =>
      have h2 : (Store.set s.store userId
          (generateDeviceToken rand (32 * s.calls))) userId
          = some (generateDeviceToken rand (32 * s.calls)) :=
        store_set_get _ _ _
      refine ⟨?_, ?_, ?_, ?_⟩ <;>
        simp_all [getOrCreateDeviceToken, clearDeviceToken, Store.del, h]

/-- C8 witness: with the draw oracle `n / 32` (call 0 draws all-0 digits,
call 1 all-1 digits) the freshly generated token after a clear differs from
the first token. -/
theorem c8_get_or_create_witness :
    generateDeviceToken (fun n => n / 32)
        (32 * (getOrCreateDeviceToken (fun n => n / 32)
          { store := Store.empty, calls := 0 } "user-1").2.calls)
      ≠ (getOrCreateDeviceToken (fun n => n / 32)
          { store := Store.empty, calls := 0 } "user-1").1
    ∧ (getOrCreateDeviceToken (fun n => n / 32)
        (clearDeviceToken
          (getOrCreateDeviceToken (fun n => n / 32)
            { store := Store.empty, calls := 0 } "user-1").2 "user-1")
        "user-1").1
      ≠ (getOrCreateDeviceToken (fun n => n / 32)
          { store := Store.empty, calls := 0 } "user-1").1 :=
  ⟨by decide,
   (c8_get_or_create_idempotent_fresh_after_clear (fun n => n / 32)
      { store := Store.empty, calls := 0 } "user-1").2.2.2.mpr (by decide)⟩

/-! ## C9 — logout clears local state regardless of revocation outcome -/

/-- C9: `logout` reports `true` and removes both the stored session and the
device token for the user, and the resulting local state is the same for
every outcome of the upstream revocation call. -/
theorem c9_logout_clears_local_state (st : ClientState) (userId : String)
    (outcome : RevokeOutcome) :
    (logout st userId outcome).1 = true
    ∧ (logout st userId outcome).2.sessions userId = none
    ∧ (logout st userId outcome).2.deviceTokens userId = none
    ∧ ∀ outcome2 : RevokeOutcome,
        (logout st userId outcome).2 = (logout st userId outcome2).2 := by
  refine ⟨rfl, ?_, ?_, fun o2 => rfl⟩
  · simp [logout, Store.del]
  · simp [logout, Store.del]

/-! ## C3 — fallback portfolio arithmetic -/

theorem stockStep_eq (env : MarketEnv) (acc : ℚ × ℚ) (p : StockPosition) :
    stockStep env acc p
      = (acc.1 + stockMarketValue env p, acc.2 + stockPrevCloseValue env p) := by
  unfold stockStep stockMarketValue stockPrevCloseValue
  by_cases hq : p.quantity = 0
  · simp [hq]
  · cases hl : stockQuoteLookup env p <;> simp [hq, hl]

theorem stockTotals_eq (env : MarketEnv) (l : List StockPosition) :
    stockTotals env l
      = ((l.map (stockMarketValue env)).sum,
         (l.map (stockPrevCloseValue env)).sum) := by
  suffices h : ∀ acc : ℚ × ℚ, l.foldl (stockStep env) acc
      = (acc.1 + (l.map (stockMarketValue env)).sum,
         acc.2 + (l.map (stockPrevCloseValue env)).sum) by
    simpa [stockTotals] using h (0, 0)
  induction l with
  | nil => intro acc; simp
  | cons p rest ih =>
      intro acc
      simp [List.foldl_cons, stockStep_eq, ih, add_assoc]

/-- C3: the fallback portfolio total is exactly cash plus the sum of stock
market values plus the sum of crypto market values plus the sum of option
market values (a thrown crypto/options fetch contributing 0); the empty
position set yields cash alone rather than an error; the previous-close
baseline subtracted for `dayChange` is cash plus the stocks-only previous
close; and every formatted crypto holding's `marketValue` is its
`quantity * currentPrice`. -/
theorem c3_fallback_portfolio_total (inp : FallbackInputs) :
    ((getPortfolioFallback inp).totalValue
      = inp.account.cash
        + ((fetchAllPages inp.stockPages []).map
            (stockMarketValue inp.marketEnv)).sum
        + (match inp.cryptoFetch with
           | none => 0
           | some hs => ((getCryptoHoldings inp.cryptoEnv hs).map
               (fun h => h.marketValue)).sum)
        + (match inp.optionsFetch with
           | none => 0
           | some ps => ((getOptionsPositions inp.optionEnv ps).map
               (fun o => o.marketValue)).sum))
    ∧ ((getPortfolioFallback inp).dayChange
      = (getPortfolioFallback inp).totalValue
        - (inp.account.cash
            + ((fetchAllPages inp.stockPages []).map
                (stockPrevCloseValue inp.marketEnv)).sum))
    ∧ (∀ (account : AccountData) (menv : MarketEnv) (cenv : CryptoEnv)
          (oenv : OptionEnv),
        (getPortfolioFallback
          { account := account, stockPages := [], marketEnv := menv,
            cryptoFetch := some [], cryptoEnv := cenv,
            optionsFetch := some [], optionEnv := oenv }).totalValue
          = account.cash)
    ∧ (∀ (hs : List CryptoHolding) (h : FormattedCryptoHolding),
        h ∈ getCryptoHoldings inp.cryptoEnv hs →
        h.marketValue = h.quantity * h.currentPrice) := by
  refine ⟨?_, ?_, ?_, ?_⟩
  · simp only [getPortfolioFallback, stockTotals_eq]
    ring
  · simp only [getPortfolioFallback, stockTotals_eq]
  · intro account menv cenv oenv
    simp [getPortfolioFallback, stockTotals, fetchAllPages, getCryptoHoldings,
      getOptionsPositions]
  · intro hs h hmem
    simp only [getCryptoHoldings] at hmem
    rcases List.mem_map.mp hmem with ⟨raw, _, rfl⟩
    rfl

/-- The C3 witness holding: two cost-basis lots, quantity 1. -/
def c3Holding : CryptoHolding :=
  { code := "BTC", name := "Bitcoin", quantity := 1,
    cost_bases :=
      [{ direct_cost_basis := 100, direct_quantity := 2 },
       { direct_cost_basis := 50, direct_quantity := 1 }] }

/-- The C3 witness crypto environment. -/
def c3CryptoEnv : CryptoEnv :=
  { pairIdOf := fun _ => some "pair-1", markPriceOf := fun _ => some 60 }

/-- The C3 witness fallback input. -/
def c3Inp : FallbackInputs :=
  { account := { cash := 25, buying_power := 40 }
    stockPages := []
    marketEnv := { instrumentOf := fun _ => none, quoteOf := fun _ => none }
    cryptoFetch := some [c3Holding]
    cryptoEnv := c3CryptoEnv
    optionsFetch := some []
    optionEnv := { optionInstrumentOf := fun _ => none,
                   markPriceOf := fun _ => none } }

theorem c3_fallback_portfolio_total_witness :
    formatCryptoHolding c3CryptoEnv c3Holding
        ∈ getCryptoHoldings c3CryptoEnv [c3Holding]
    ∧ (formatCryptoHolding c3CryptoEnv c3Holding).marketValue
        = (formatCryptoHolding c3CryptoEnv c3Holding).quantity
          * (formatCryptoHolding c3CryptoEnv c3Holding).currentPrice := by
  have hmem : formatCryptoHolding c3CryptoEnv c3Holding
      ∈ getCryptoHoldings c3CryptoEnv [c3Holding] := by
    simp [getCryptoHoldings, c3Holding]
  exact ⟨hmem,
    (c3_fallback_portfolio_total c3Inp).2.2.2 [c3Holding]
      (formatCryptoHolding c3CryptoEnv c3Holding) hmem⟩

/-! ## C5 — option gain/loss sign by position type -/

/-- The C5 example environment: mark price 3.00. -/
def c5Env : OptionEnv :=
  { optionInstrumentOf := fun _ => some
      { chain_symbol := "AAPL", type := OptionType.call, strike_price := 150,
        expiration_date := "2026-01-16" }
    markPriceOf := fun _ => some 3 }

/-- The C5 example short position: `averageCost = 2.00`, `quantity = 1`,
`multiplier = 100`. -/
def c5Short : OptionPositionRaw :=
  { chain_symbol := "AAPL", option := "opt-1", average_price := 2,
    trade_value_multiplier := some 100, quantity := 1,
    type := PositionType.short }

/-- The C5 example long position. -/
def c5Long : OptionPositionRaw :=
  { c5Short with type := PositionType.long }

/-- C5: for every nonzero option position, with
`marketValue = quantity * currentPrice * multiplier` and
`cost = quantity * averageCost * multiplier` (multiplier defaulting to 100),
`totalGainLoss` is `marketValue - cost` for a long position and
`cost - marketValue` for a short; the position is included in the
`getOptionsPositions` output; and at the spec's concrete input the short
yields -100 and the long +100. -/
theorem c5_option_gain_loss_sign (env : OptionEnv) (p : OptionPositionRaw)
    (h : ¬ p.quantity = 0) :
    ((formatOptionPosition env p).marketValue
      = p.quantity * (formatOptionPosition env p).currentPrice
        * multiplierOf p.trade_value_multiplier)
    ∧ ((formatOptionPosition env p).totalGainLoss
      = match p.type with
        | PositionType.long =>
            (formatOptionPosition env p).marketValue
              - p.quantity * p.average_price
                * multiplierOf p.trade_value_multiplier
        | PositionType.short =>
            p.quantity * p.average_price * multiplierOf p.trade_value_multiplier
              - (formatOptionPosition env p).marketValue)
    ∧ formatOptionPosition env p ∈ getOptionsPositions env [p]
    ∧ (formatOptionPosition c5Env c5Short).totalGainLoss = -100
    ∧ (formatOptionPosition c5Env c5Long).totalGainLoss = 100 := by
  refine ⟨rfl, ?_, ?_, ?_, ?_⟩
  · obtain ⟨cs, o, ap, tvm, q, ty⟩ := p
    cases ty <;> rfl
  · simp [getOptionsPositions, h]
  · norm_num [formatOptionPosition, c5Env, c5Short, multiplierOf]
  · norm_num [formatOptionPosition, c5Env, c5Long, c5Short, multiplierOf]

theorem c5_option_gain_loss_sign_witness :
    ¬ c5Short.quantity = 0
    ∧ formatOptionPosition c5Env c5Short
        ∈ getOptionsPositions c5Env [c5Short] :=
  ⟨by decide, (c5_option_gain_loss_sign c5Env c5Short (by decide)).2.2.1⟩

/-! ## C7 — invalid MFA code surfaces remaining attempts, same challenge id -/

/-- C7: when the challenge-respond endpoint answers non-validated with a
`challenge.remaining_attempts = n`, the login returns early with the
invalid-code result whose error message surfaces exactly `n` and whose
`challengeId` is the one that was submitted. -/
theorem c7_invalid_code_surfaces_attempts (challengeId : String)
    (d : ChallengeRespondData) (n : Nat)
    (hstatus : ¬ d.status = some "validated")
    (hchallenge : d.challenge = some { remaining_attempts := some n }) :
    respondToChallenge challengeId (ChallengeRespondOutcome.ok d)
      = some { loginResultBase with
                success := false
                error := some ("Invalid code. " ++ toString n
                  ++ " attempts remaining.")
                mfaRequired := some true
                challengeId := some challengeId
                challengeType := some "sms" } := by
  simp [respondToChallenge, hstatus, hchallenge]

theorem c7_invalid_code_surfaces_attempts_witness :
    ¬ (some "issued" : Option String) = some "validated"
    ∧ respondToChallenge "chal-9"
        (ChallengeRespondOutcome.ok
          { status := some "issued",
            challenge := some { remaining_attempts := some 2 } })
      = some { loginResultBase with
                success := false
                error := some "Invalid code. 2 attempts remaining."
                mfaRequired := some true
                challengeId := some "chal-9"
                challengeType := some "sms" } := by
  refine ⟨by decide, ?_⟩
  have h := c7_invalid_code_surfaces_attempts "chal-9"
    { status := some "issued", challenge := some { remaining_attempts := some 2 } }
    2 (by decide) rfl
  simpa using h

/-! ## C10 — positions with failed instrument/quote lookups -/

/-- C10: a nonzero position whose instrument lookup fails, or whose quote
lookup fails after a successful instrument lookup, is still included in the
`getPositions` output with `currentPrice = 0`, hence `marketValue = 0` and
`totalGainLoss = -(quantity * averageCost)`; the symbol/name defaults
"UNKNOWN"/"Unknown" apply when the instrument lookup itself fails. -/
theorem c10_failed_lookup_included (env : MarketEnv) (p : StockPosition)
    (hq : ¬ p.quantity = 0)
    (hfail : env.instrumentOf p.instrument = none
      ∨ ∃ ins, env.instrumentOf p.instrument = some ins
          ∧ env.quoteOf ins.symbol = none) :
    ((processPosition env p).currentPrice = 0
     ∧ (processPosition env p).marketValue = 0
     ∧ (processPosition env p).totalGainLoss
        = -(p.quantity * p.average_buy_price))
    ∧ (env.instrumentOf p.instrument = none →
        (processPosition env p).symbol = "UNKNOWN"
        ∧ (processPosition env p).name = "Unknown")
    ∧ ∀ pages : List (List StockPosition), p ∈ getPositionsFetch pages →
        processPosition env p ∈ getPositionsOp env pages := by
  refine ⟨?_, ?_, ?_⟩
  · rcases hfail with hi | ⟨ins, hi, hq2⟩
    · simp [processPosition, hi]
    · simp [processPosition, hi, hq2]
  · intro hi
    constructor <;> simp [processPosition, hi]
  · intro pages hmem
    simp only [getPositionsOp]
    exact List.mem_map_of_mem _
      (List.mem_filter.mpr ⟨hmem, by simp [hq]⟩)

/-- The C10 counterexample environment: the instrument resolves, every quote
fetch throws. -/
def c10Env : MarketEnv :=
  { instrumentOf := fun s =>
      if s = "ins-1" then
        some { symbol := "AAPL", simple_name := some "Apple",
               name := "Apple Inc." }
      else none
    quoteOf := fun _ => none }

/-- The C10 counterexample position. -/
def c10Pos : StockPosition :=
  { instrument := "ins-1", average_buy_price := 10, quantity := 2 }

/-- The C10 witness environment: every lookup throws. -/
def c10FailEnv : MarketEnv :=
  { instrumentOf := fun _ => none, quoteOf := fun _ => none }

/-- C10 (counterexample): when only the quote lookup fails, the position is
reported under the instrument's symbol, not "UNKNOWN" — the claim's
"symbol UNKNOWN, name Unknown" does not hold of that case (the price is
still 0). -/
theorem c10_quote_failure_keeps_instrument_symbol :
    ¬ c10Pos.quantity = 0
    ∧ c10Env.quoteOf "AAPL" = none
    ∧ (processPosition c10Env c10Pos).symbol = "AAPL"
    ∧ ¬ (processPosition c10Env c10Pos).symbol = "UNKNOWN"
    ∧ (processPosition c10Env c10Pos).currentPrice = 0 := by
  refine ⟨by decide, rfl, ?_, ?_, ?_⟩
  · simp [processPosition, c10Env, c10Pos, jsStringOr]
  · simp [processPosition, c10Env, c10Pos, jsStringOr]
  · simp [processPosition, c10Env, c10Pos, jsStringOr]

theorem c10_failed_lookup_included_witness :
    ¬ c10Pos.quantity = 0
    ∧ c10FailEnv.instrumentOf c10Pos.instrument = none
    ∧ (processPosition c10FailEnv c10Pos).symbol = "UNKNOWN"
    ∧ (processPosition c10FailEnv c10Pos).name = "Unknown" := by
  refine ⟨by decide, rfl, ?_⟩
  have h := (c10_failed_lookup_included c10FailEnv c10Pos (by decide)
    (Or.inl rfl)).2.1 rfl
  exact h

/-! ## C4 — device-approval poll schedule -/

theorem pollGo_checks_le (responses : Nat → Option String) (d : Nat) :
    ∀ (n attempt : Nat) (acc : List Nat),
      (pollGo responses d attempt n acc).checks ≤ attempt + n := by
  intro n
  induction n with
  | zero => intro attempt acc; simp [pollGo]
  | succ m ih =>
      intro attempt acc
      simp only [pollGo]
      by_cases hr : responses attempt = some "validated"
      · rw [if_pos hr]
        show attempt + 1 ≤ attempt + (m + 1)
        omega
      · rw [if_neg hr]
        have := ih (attempt + 1) ((if attempt = 0 then 0 else d) :: acc)
        omega

/-- C4: the poll performs at most 6 status checks; if no check observes
`validated` the trace is 6 checks with delays `[0, 2s, 2s, 2s, 2s, 2s]` and
a non-validated outcome; if the first `validated` is observed at (0-indexed)
check `k` the poll stops after exactly `k + 1` checks with delays
`0 :: replicate k 2s`; a non-validated poll surfaces as the still-pending
`deviceVerificationRequired` result (with the challenge id, success = false),
while a validated one surfaces `shouldRetry` — not a hard failure. -/
theorem c4_prompt_poll_schedule (responses : Nat → Option String) :
    (pollPromptStatus responses).checks ≤ 6
    ∧ ((∀ i, i < 6 → ¬ responses i = some "validated") →
        pollPromptStatus responses
          = { validated := false, checks := 6,
              delays := 0 :: List.replicate 5 2000 })
    ∧ (∀ k, k < 6 → responses k = some "validated" →
        (∀ i, i < k → ¬ responses i = some "validated") →
        pollPromptStatus responses
          = { validated := true, checks := k + 1,
              delays := 0 :: List.replicate k 2000 })
    ∧ (∀ challengeId : String,
        (promptChallengeBranch false challengeId).deviceVerificationRequired
            = some true
        ∧ (promptChallengeBranch false challengeId).success = false
        ∧ (promptChallengeBranch false challengeId).challengeId
            = some challengeId
        ∧ (promptChallengeBranch true challengeId).shouldRetry = some true) := by
  refine ⟨?_, ?_, ?_, ?_⟩
  · simpa [pollPromptStatus] using pollGo_checks_le responses 2000 6 0 []
  · intro h
    have h0 := h 0 (by omega)
    have h1 := h 1 (by omega)
    have h2 := h 2 (by omega)
    have h3 := h 3 (by omega)
    have h4 := h 4 (by omega)
    have h5 := h 5 (by omega)
    simp [pollPromptStatus, pollGo, h0, h1, h2, h3, h4, h5, List.replicate]
  · intro k hk hval hbefore
    interval_cases k
    · simp [pollPromptStatus, pollGo, hval, List.replicate]
    · have h0 := hbefore 0 (by omega)
      simp [pollPromptStatus, pollGo, hval, h0, List.replicate]
    · have h0 := hbefore 0 (by omega)
      have h1 := hbefore 1 (by omega)
      simp [pollPromptStatus, pollGo, hval, h0, h1, List.replicate]
    · have h0 := hbefore 0 (by omega)
      have h1 := hbefore 1 (by omega)
      have h2 := hbefore 2 (by omega)
      simp [pollPromptStatus, pollGo, hval, h0, h1, h2, List.replicate]
    · have h0 := hbefore 0 (by omega)
      have h1 := hbefore 1 (by omega)
      have h2 := hbefore 2 (by omega)
      have h3 := hbefore 3 (by omega)
      simp [pollPromptStatus, pollGo, hval, h0, h1, h2, h3, List.replicate]
    · have h0 := hbefore 0 (by omega)
      have h1 := hbefore 1 (by omega)
      have h2 := hbefore 2 (by omega)
      have h3 := hbefore 3 (by omega)
      have h4 := hbefore 4 (by omega)
      simp [pollPromptStatus, pollGo, hval, h0, h1, h2, h3, h4, List.replicate]
  · intro challengeId
    refine ⟨rfl, rfl, rfl, rfl⟩

/-- The C4 witness status stream: `validated` on the third (0-indexed second)
check. -/
def c4Responses : Nat → Option String :=
  fun n => if n = 2 then some "validated" else some "issued"

theorem c4_prompt_poll_schedule_witness :
    (2 < 6 ∧ c4Responses 2 = some "validated")
    ∧ pollPromptStatus c4Responses
        = { validated := true, checks := 3, delays := [0, 2000, 2000] } := by
  refine ⟨⟨by decide, by decide⟩, ?_⟩
  have h := (c4_prompt_poll_schedule c4Responses).2.2.1 2 (by decide)
    (by decide) (by intro i hi; interval_cases i <;> decide)
  simpa [List.replicate] using h

/-! ## C6 — today's option trades: early-stop pagination refinement -/

/-- On a strictly reverse-chronological stream, the early-stop pagination
followed by the exact-date filter returns the same orders as exhaustive
pagination followed by the same filter. -/
theorem collect_filter_eq (today : Nat) (pages : List (List OptionOrder))
    (h : StrictReverseChron pages.flatten) :
    todayFilter today (collectOrderPages today pages)
      = todayFilter today pages.flatten := by
  induction pages with
  | nil => rfl
  | cons page rest ih =>
      rw [List.flatten_cons] at h
      rcases List.pairwise_append.mp h with ⟨hpage, hrest, hcross⟩
      simp only [collectOrderPages, List.flatten_cons]
      cases hl : page.getLast? with
      | none =>
          have hpage_nil : page = [] := List.getLast?_eq_none_iff.mp hl
          subst hpage_nil
          simpa [todayFilter] using ih hrest
      | some lastOrder =>
          dsimp only
          by_cases hd : lastOrder.created_day < today
          · rw [if_pos hd]
            simp only [todayFilter, List.filter_append]
            have hnil : (rest.flatten).filter
                (fun o => (o.created_day = today : Bool)) = [] := by
              apply List.filter_eq_nil_iff.mpr
              intro b hb
              have hlt : createdLt b lastOrder :=
                hcross lastOrder (List.mem_of_getLast?_eq_some hl) b hb
              simp only [decide_eq_true_eq]
              rcases hlt with h1 | ⟨h1, _⟩ <;> omega
            rw [hnil, List.append_nil]
          · rw [if_neg hd]
            simp only [todayFilter, List.filter_append] at ih ⊢
            rw [ih hrest]

/-- C6: on a strictly reverse-chronological order stream, the early-stop
today's-trades query equals the exhaustive paginate-then-filter reference;
its output is sorted descending by `executedAt` and is a permutation of the
flattened per-leg records of today's orders; and each record's `executedAt`
is the leg's last execution timestamp when executions exist, else the order's
`updated_at`. -/
theorem c6_today_trades_refinement (lookup : String → Option OptionInstrument)
    (today : Nat) (pages : List (List OptionOrder))
    (h : StrictReverseChron pages.flatten) :
    getTodayOptionsOrders lookup today pages
      = getTodayOptionsOrdersExhaustive lookup today pages
    ∧ List.Pairwise (fun a b => b.executedAt ≤ a.executedAt)
        (getTodayOptionsOrders lookup today pages)
    ∧ (getTodayOptionsOrders lookup today pages).Perm
        (flattenOrders lookup (todayFilter today pages.flatten))
    ∧ ∀ (o : OptionOrder) (leg : OptionOrderLeg) (ins : OptionInstrument),
        (mkTrade o leg ins).executedAt
          = match leg.executions.getLast? with
            | some e => e.timestamp
            | none => o.updated_at := by
  have hfe := collect_filter_eq today pages h
  refine ⟨?_, ?_, ?_, ?_⟩
  · simp only [getTodayOptionsOrders, getTodayOptionsOrdersExhaustive, hfe]
  · have hs := @List.sorted_mergeSort FormattedOptionTrade tradeDesc
      (fun a b c hab hbc => by
        simp only [tradeDesc, decide_eq_true_eq] at hab hbc ⊢
        omega)
      (fun a b => by
        simp only [tradeDesc, Bool.or_eq_true, decide_eq_true_eq]
        omega)
      (flattenOrders lookup (todayFilter today (collectOrderPages today pages)))
    exact List.Pairwise.imp
      (fun hab => by simpa [tradeDesc, decide_eq_true_eq] using hab) hs
  · have hp := List.mergeSort_perm
      (flattenOrders lookup (todayFilter today (collectOrderPages today pages)))
      tradeDesc
    simpa only [getTodayOptionsOrders, sortTradesDesc, hfe] using hp
  · intro o leg ins
    rfl

/-- The C6 witness instrument. -/
def c6Ins : OptionInstrument :=
  { chain_symbol := "TSLA", type := OptionType.put, strike_price := 200,
    expiration_date := "2026-02-20" }

/-- The C6 witness instrument lookup (always resolves). -/
def c6Lookup : String → Option OptionInstrument := fun _ => some c6Ins

/-- The C6 witness order created on day 20 (today). -/
def c6Order1 : OptionOrder :=
  { id := "ord-1", created_day := 20, created_time := 30, updated_at := 5000,
    price := 2, processed_quantity := 1, state := "filled",
    legs := [{ option := "opt-a", position_effect := "open",
               ratio_quantity := 1, side := "buy",
               executions := [{ timestamp := 4000 }] }] }

/-- The C6 witness order created on day 19 (yesterday, triggering the early
stop). -/
def c6Order2 : OptionOrder :=
  { id := "ord-2", created_day := 19, created_time := 50, updated_at := 3000,
    price := 1, processed_quantity := 2, state := "filled",
    legs := [{ option := "opt-b", position_effect := "close",
               ratio_quantity := 1, side := "sell", executions := [] }] }

/-- The C6 witness page stream. -/
def c6Pages : List (List OptionOrder) := [[c6Order1], [c6Order2]]

theorem c6_today_trades_refinement_witness :
    StrictReverseChron c6Pages.flatten
    ∧ getTodayOptionsOrders c6Lookup 20 c6Pages
        = getTodayOptionsOrdersExhaustive c6Lookup 20 c6Pages :=
  ⟨by decide,
   (c6_today_trades_refinement c6Lookup 20 c6Pages (by decide)).1⟩

end Manjha
